import Mathlib

/-!
# Verification of the pipeline-viewer geometric measurement engine

Shallow embedding, over exact rational arithmetic, of the geometric core of
the pipeline-network 3D viewer:

* the segment/segment, point/triangle and mesh/mesh closest-point routines of
  the distance-measurement component,
* the coordinate mapper turning a pipe record's depth/radius attributes into a
  3D centerline segment,
* the cross-section acceptance logic (parametric `t` range and plane-distance
  tolerance) and the depth-label scaling formula.

Numeric conventions: JavaScript numbers are modelled as `ℚ`; the code's
Euclidean distances (`Vector3.distanceTo`, `Math.sqrt`) are modelled by squared
distances throughout — the square root is strictly monotone on nonnegatives so
every comparison, minimum selection and equality of distances in the source is
faithfully mirrored by the corresponding statement about squared distances.
-/

/-- A 3D vector, mirroring `THREE.Vector3` with rational components. -/
structure Vec3 where
  x : ℚ
  y : ℚ
  z : ℚ
deriving DecidableEq, Repr

namespace Vec3

/-- Component-wise addition (`Vector3.add`). -/
def add (u v : Vec3) : Vec3 := ⟨u.x + v.x, u.y + v.y, u.z + v.z⟩

/-- Component-wise subtraction (`Vector3.sub` / `subVectors`). -/
def sub (u v : Vec3) : Vec3 := ⟨u.x - v.x, u.y - v.y, u.z - v.z⟩

/-- Scalar multiplication (`Vector3.multiplyScalar`). -/
def smul (u : Vec3) (k : ℚ) : Vec3 := ⟨u.x * k, u.y * k, u.z * k⟩

/-- Dot product (`Vector3.dot`). -/
def dot (u v : Vec3) : ℚ := u.x * v.x + u.y * v.y + u.z * v.z

end Vec3

/-- Squared Euclidean distance; the source's `distanceTo` is its square root. -/
def sqDist (u v : Vec3) : ℚ := (u.sub v).dot (u.sub v)

/-- Clamp to `[0,1]`, the source's `Math.max(0, Math.min(1, v))` pattern. -/
def clamp01 (v : ℚ) : ℚ := max 0 (min 1 v)

/-- `Number.EPSILON`, the degeneracy threshold used by the segment routine. -/
def jsEpsilon : ℚ := 1 / 2 ^ 52

/-- Witness pair returned by the segment/segment closest-point routine. -/
structure SegResult where
  pointA : Vec3
  pointB : Vec3
deriving DecidableEq, Repr

/-- Parameter pair `(s, t)` computed by the general (both segments
non-degenerate) case of `getClosestPointsBetweenLineSegments`, transcribed from
`DistanceMeasurement.getClosestPointsBetweenLineSegments` (the block guarded by
`a > ε ∧ e > ε`): solve for `s` on the first segment with the parallel guard
`denom !== 0`, derive `t`, and re-solve `s` when `t` leaves `[0,1]`. -/
def segParamGeneral (a b c e f : ℚ) : ℚ × ℚ :=
  let denom := a * e - b * b
  let s0 := if denom ≠ 0 then clamp01 ((b * f - c * e) / denom) else 0
  let t0 := (b * s0 + f) / e
  if t0 < 0 then (clamp01 (-c / a), 0)
  else if t0 > 1 then (clamp01 ((b - c) / a), 1)
  else (s0, t0)

/-- The full `(s, t)` computation of `getClosestPointsBetweenLineSegments` on
the scalar products `a = d1·d1`, `b = d1·d2`, `c = d1·r`, `e = d2·d2`,
`f = d2·r`: both degeneracy guards (`dot ≤ Number.EPSILON` collapses a segment
to a point) and the general case. -/
def segParams (a b c e f : ℚ) : ℚ × ℚ :=
  if a ≤ jsEpsilon ∧ e ≤ jsEpsilon then (0, 0)
  else if a ≤ jsEpsilon then (0, clamp01 (f / e))
  else if e ≤ jsEpsilon then (clamp01 (-c / a), 0)
  else segParamGeneral a b c e f

/-- `getClosestPointsBetweenLineSegments(a1, a2, b1, b2)` from the
distance-measurement component: classic parametric segment/segment nearest
points — the scalar `(s, t)` of `segParams` applied to the dot products, then
`pointA = a1 + s·d1`, `pointB = b1 + t·d2`. -/
def getClosestPointsBetweenLineSegments (a1 a2 b1 b2 : Vec3) : SegResult :=
  let d1 := a2.sub a1
  let d2 := b2.sub b1
  let r := a1.sub b1
  let st := segParams (d1.dot d1) (d1.dot d2) (d1.dot r) (d2.dot d2) (d2.dot r)
  { pointA := a1.add (d1.smul st.1), pointB := b1.add (d2.smul st.2) }

/-- The squared distance `‖r + s·d1 - t·d2‖²` between parameterized points of
the two segments, expanded over the scalar products (`rr = ‖r‖²`): the convex
quadratic the segment routine minimizes over the unit box. -/
def segQuadF (rr a b c e f s t : ℚ) : ℚ :=
  rr + a * s ^ 2 + e * t ^ 2 - 2 * b * (s * t) + 2 * c * s - 2 * f * t

/-- Squared distance between the witness points returned by
`getClosestPointsBetweenLineSegments`; the source reports its square root. -/
def segWitnessSqDist (a1 a2 b1 b2 : Vec3) : ℚ :=
  let res := getClosestPointsBetweenLineSegments a1 a2 b1 b2
  sqDist res.pointA res.pointB

/-- Parameter pair `(s, t)` computed by `getClosestPointToTriangle`, transcribed
branch by branch from the source (the region numbers are the source's own
comments).  In region 0 the source multiplies by `invDet = 1 / det`; that is
modelled by division (the only reachable `det = 0` instance there forces
`s = t = 0`, see `triParam_barycentric`). -/
def triParam (point v0 v1 v2 : Vec3) : ℚ × ℚ :=
  let edge0 := v1.sub v0
  let edge1 := v2.sub v0
  let v0ToPoint := point.sub v0
  let a := edge0.dot edge0
  let b := edge0.dot edge1
  let c := edge1.dot edge1
  let d := edge0.dot v0ToPoint
  let e := edge1.dot v0ToPoint
  let det := a * c - b * b
  let s := b * e - c * d
  let t := b * d - a * e
  if s + t ≤ det then
    if s < 0 then
      if t < 0 then (0, 0)                      -- region 4
      else (0, clamp01 (e / c))                 -- region 3
    else if t < 0 then (clamp01 (d / a), 0)     -- region 5
    else (s / det, t / det)                     -- region 0 (interior)
  else
    if s < 0 then (0, 1)                        -- region 2
    else if t < 0 then (1, 0)                   -- region 6
    else
      let s1 := clamp01 ((c + e - b - d) / (a - 2 * b + c))  -- region 1
      (s1, 1 - s1)

/-- Result of the point/triangle closest-point routine; the source stores the
Euclidean distance, modelled squared. -/
structure TriResult where
  closestPoint : Vec3
  sqDistance : ℚ
deriving DecidableEq, Repr

/-- `getClosestPointToTriangle(point, v0, v1, v2)` from the distance-measurement
component: the returned point is `v0 + s·edge0 + t·edge1` for the `(s, t)` of
`triParam`, and the reported distance is `point.distanceTo(closestPoint)`
(kept squared here). -/
def getClosestPointToTriangle (point v0 v1 v2 : Vec3) : TriResult :=
  let st := triParam point v0 v1 v2
  let closestPoint := (v0.add ((v1.sub v0).smul st.1)).add ((v2.sub v0).smul st.2)
  { closestPoint := closestPoint, sqDistance := sqDist point closestPoint }

/-- A `THREE.BufferGeometry` as consumed by the mesh/mesh routine: an optional
`attributes.position` vertex buffer and an optional `index` buffer. -/
structure BufferGeometry where
  position : Option (List Vec3)
  index : Option (List ℕ)
deriving DecidableEq, Repr

/-- A mesh: the routine first checks `geometry` itself for null.  Vertices are
taken directly as world-space snapshots (the source's `localToWorld` with the
identity transform, matching the spec's world-space `SolidMesh`). -/
structure Mesh where
  geometry : Option BufferGeometry
deriving DecidableEq, Repr

/-- Candidate witness pair considered by one pass of the mesh/mesh routine,
with its squared distance (the source compares Euclidean distances; square
root is monotone, so the running-minimum selection is identical). -/
structure MeshCand where
  pointA : Vec3
  pointB : Vec3
  sqD : ℚ
deriving DecidableEq, Repr

/-- Split an index buffer into consecutive `(i, i+1, i+2)` triples, mirroring
the `for (j = 0; j < index.count; j += 3)` loops (well-formed buffers have a
multiple-of-three count). -/
def indexTriples : List ℕ → List (ℕ × ℕ × ℕ)
  | i0 :: i1 :: i2 :: rest => (i0, i1, i2) :: indexTriples rest
  | _ => []

/-- Resolve an indexed triangle to its vertex positions (`vertices[index.getX(j)]`;
out-of-range access is modelled by a zero default, excluded by the
well-formedness hypotheses of the theorems below). -/
def resolveTriangles (vs : List Vec3) (index : List ℕ) : List (Vec3 × Vec3 × Vec3) :=
  (indexTriples index).map fun t =>
    (vs.getD t.1 ⟨0, 0, 0⟩, vs.getD t.2.1 ⟨0, 0, 0⟩, vs.getD t.2.2 ⟨0, 0, 0⟩)

/-- The three directed edges `[0→1, 1→2, 2→0]` of a triangle, as in the
`edgesA`/`edgesB` arrays of the edge/edge pass. -/
def triangleEdges (t : Vec3 × Vec3 × Vec3) : List (Vec3 × Vec3) :=
  [(t.1, t.2.1), (t.2.1, t.2.2), (t.2.2, t.1)]

/-- Pass 1: every vertex of A against every face of B (runs only `if (indexB)`). -/
def vertexFaceCands (versA : List Vec3) (trisB : List (Vec3 × Vec3 × Vec3)) : List MeshCand :=
  versA.flatMap fun va =>
    trisB.map fun t =>
      let res := getClosestPointToTriangle va t.1 t.2.1 t.2.2
      ⟨va, res.closestPoint, res.sqDistance⟩

/-- Pass 2: every vertex of B against every face of A (runs only `if (indexA)`);
note the witness order (`closestPointA` is the point on A's face). -/
def faceVertexCands (versB : List Vec3) (trisA : List (Vec3 × Vec3 × Vec3)) : List MeshCand :=
  versB.flatMap fun vb =>
    trisA.map fun t =>
      let res := getClosestPointToTriangle vb t.1 t.2.1 t.2.2
      ⟨res.closestPoint, vb, res.sqDistance⟩

/-- Pass 3: every edge of A against every edge of B (runs only when both index
buffers are present), in the source's nesting order: A-triangle, A-edge,
B-triangle, B-edge. -/
def edgeEdgeCands (trisA trisB : List (Vec3 × Vec3 × Vec3)) : List MeshCand :=
  trisA.flatMap fun tA =>
    (triangleEdges tA).flatMap fun eA =>
      trisB.flatMap fun tB =>
        (triangleEdges tB).map fun eB =>
          let res := getClosestPointsBetweenLineSegments eA.1 eA.2 eB.1 eB.2
          ⟨res.pointA, res.pointB, sqDist res.pointA res.pointB⟩

/-- One update of the running minimum: `minDistance` starts at `Infinity`
(the `none` state, always replaced) and a candidate replaces the best only
when strictly closer (`result.distance < minDistance`), so ties keep the
first-found pair. -/
def minStep (acc : Option MeshCand) (cand : MeshCand) : Option MeshCand :=
  match acc with
  | none => some cand
  | some best => if cand.sqD < best.sqD then some cand else some best

/-- Running strict-minimum over the candidate stream. -/
def runningMin (cands : List MeshCand) : Option MeshCand :=
  cands.foldl minStep none

/-- The full candidate list examined by `getClosestPointsBetweenMeshes`, with
each pass guarded by the presence of the index buffer it reads. -/
def meshCandidates (gA gB : BufferGeometry) (versA versB : List Vec3) : List MeshCand :=
  (match gB.index with
   | some ib => vertexFaceCands versA (resolveTriangles versB ib)
   | none => [])
  ++ (match gA.index with
      | some ia => faceVertexCands versB (resolveTriangles versA ia)
      | none => [])
  ++ (match gA.index, gB.index with
      | some ia, some ib => edgeEdgeCands (resolveTriangles versA ia) (resolveTriangles versB ib)
      | _, _ => [])

/-- `getClosestPointsBetweenMeshes(meshA, meshB)`: null checks on the
geometries and position buffers, then the three passes with a running strict
minimum; returns `null` (`none`) exactly when no candidate updated the running
minimum. -/
def getClosestPointsBetweenMeshes (meshA meshB : Mesh) : Option MeshCand :=
  match meshA.geometry, meshB.geometry with
  | some gA, some gB =>
      match gA.position, gB.position with
      | some versA, some versB => runningMin (meshCandidates gA gB versA versB)
      | _, _ => none
  | _, _ => none

/-- The attribute dictionary of a pipe record; absent attributes are `none`
(`null`/`undefined`).  Numbers are rationals, so the source's
`Number.isFinite` checks on present depths always succeed in this model. -/
structure PipeAttributes where
  radius : Option ℚ
  start_point_depth : Option ℚ
  end_point_depth : Option ℚ
deriving DecidableEq, Repr

/-- One entry of `objectData.geometry`: the raw vertex polyline, each vertex a
triple of raw planar/elevation components in stored index order `0,1,2`. -/
structure PipeGeometry where
  vertices : List (ℚ × ℚ × ℚ)
deriving DecidableEq, Repr

/-- A pipe record (`objectData`) as read by the cross-section component. -/
structure ObjectData where
  attributes : Option PipeAttributes
  geometry : List PipeGeometry
deriving DecidableEq, Repr

/-- Radius normalization applied to a stored radius value: `if (radius > 5)
radius = radius / 1000; radius = Math.max(radius, 0.05)`. -/
def normalizeRadius (r : ℚ) : ℚ :=
  max (if r > 5 then r / 1000 else r) (1 / 20)

/-- The effective radius of a record: stored attribute if present, else the
`0.3` default, then `normalizeRadius` — transcribing
`let radius = (objectData.attributes?.radius != null) ? Number(...) : 0.3`. -/
def pipeRadius (attributes : Option PipeAttributes) : ℚ :=
  normalizeRadius ((attributes.bind PipeAttributes.radius).getD (3 / 10))

/-- `hasDepthAttrs`: both depth attributes present (and numeric, which is
automatic over `ℚ`). -/
def hasDepthAttrs (attributes : Option PipeAttributes) : Bool :=
  match attributes with
  | some a => a.start_point_depth.isSome && a.end_point_depth.isSome
  | none => false

/-- Centerline elevation from a top-of-pipe depth in centimeters, as computed
by the cross-section component (all three sites in `CrossSectionPlane.js`, and
documented in the repository README):
`startDepth = depth / 100; startDepth >= 0 ? -(startDepth + radius) : startDepth`. -/
def centerElevation (depthCm radius : ℚ) : ℚ :=
  let d := depthCm / 100
  if d ≥ 0 then -(d + radius) else d

/-- The variant used when `Scene3D.js` builds the cylinder geometry (its line
149): `(startDepth > 0 ? -startDepth : startDepth) - radius`. -/
def scene3dGeometryCenterY (depthCm radius : ℚ) : ℚ :=
  let d := depthCm / 100
  (if d > 0 then -d else d) - radius

/-- The variant used when `Scene3D.js` positions the same cylinder (its line
267): `startDepth > 0 ? -(startDepth - radius) : startDepth`. -/
def scene3dPositionCenterY (depthCm radius : ℚ) : ℚ :=
  let d := depthCm / 100
  if d > 0 then -(d - radius) else d

/-- A derived centerline segment: two 3D endpoints plus the effective radius.
(`stop` stands for the source's `end`, a reserved word here.) -/
structure Segment3 where
  start : Vec3
  stop : Vec3
  radius : ℚ
deriving DecidableEq, Repr

/-- The coordinate mapper of the cross-section component
(`drawClickedPipeCrossSection` lines 56–101, repeated verbatim in the two
vertical-line drawers): guard on `geometry?.[0]` and at least two vertices,
normalize the radius, then build both endpoints — from the depth attributes
when both are present, else from the raw vertex elevation minus the radius.
The constructed components are `(vertex[1], centerY, vertex[0])`. -/
def mapPipeToSegment (objectData : ObjectData) : Option Segment3 :=
  match objectData.geometry.head? with
  | none => none
  | some geom =>
      if geom.vertices.length < 2 then none
      else
        let radius := pipeRadius objectData.attributes
        let startVertex := geom.vertices.getD 0 (0, 0, 0)
        let endVertex := geom.vertices.getD (geom.vertices.length - 1) (0, 0, 0)
        let depths : Option (ℚ × ℚ) :=
          match objectData.attributes with
          | some a =>
              match a.start_point_depth, a.end_point_depth with
              | some sd, some ed => some (sd, ed)
              | _, _ => none
          | none => none
        match depths with
        | some (sd, ed) =>
            some { start := ⟨startVertex.2.1, centerElevation sd radius, startVertex.1⟩
                   stop := ⟨endVertex.2.1, centerElevation ed radius, endVertex.1⟩
                   radius := radius }
        | none =>
            some { start := ⟨startVertex.2.1, startVertex.2.2 - radius, startVertex.1⟩
                   stop := ⟨endVertex.2.1, endVertex.2.2 - radius, endVertex.1⟩
                   radius := radius }

/-- Per-pipe acceptance logic of `drawVerticalLinesAtCrossSectionPlane` (the
fixed-plane path): the plane must overlap the pipe's `z` extent (radius
included), the centerline must not be parallel to the plane
(`|direction.z| > 0.001`), and the parametric intersection must satisfy
`0 ≤ t ≤ 1`; returns the intersection point and `t` when accepted. -/
def acceptAtCrossSectionPlane (objectData : ObjectData) (crossSectionZ : ℚ) :
    Option (Vec3 × ℚ) :=
  match mapPipeToSegment objectData with
  | none => none
  | some seg =>
      let minZ := min seg.start.z seg.stop.z - seg.radius
      let maxZ := max seg.start.z seg.stop.z + seg.radius
      if crossSectionZ ≥ minZ ∧ crossSectionZ ≤ maxZ then
        let direction := seg.stop.sub seg.start
        if |direction.z| > 1 / 1000 then
          let t := (crossSectionZ - seg.start.z) / direction.z
          if t ≥ 0 ∧ t ≤ 1 then some (seg.start.add (direction.smul t), t)
          else none
        else none
      else none

/-- Per-pipe acceptance logic of `drawVerticalLinesAtDepth` (the fixed-depth
grid-line path): `z`-extent overlap, `y`-extent overlap, non-horizontal
centerline (`|direction.y| > 0.001`), `0 ≤ t ≤ 1`, and finally the
plane-distance tolerance `|intersectionPoint.z - crossSectionZ| ≤ radius`. -/
def acceptAtDepth (objectData : ObjectData) (targetDepth crossSectionZ : ℚ) :
    Option (Vec3 × ℚ) :=
  match mapPipeToSegment objectData with
  | none => none
  | some seg =>
      let minZ := min seg.start.z seg.stop.z - seg.radius
      let maxZ := max seg.start.z seg.stop.z + seg.radius
      if crossSectionZ < minZ ∨ crossSectionZ > maxZ then none
      else
        let minY := min seg.start.y seg.stop.y - seg.radius
        let maxY := max seg.start.y seg.stop.y + seg.radius
        if targetDepth ≥ minY ∧ targetDepth ≤ maxY then
          let direction := seg.stop.sub seg.start
          if |direction.y| > 1 / 1000 then
            let t := (targetDepth - seg.start.y) / direction.y
            if t ≥ 0 ∧ t ≤ 1 then
              let ip := seg.start.add (direction.smul t)
              if |ip.z - crossSectionZ| > seg.radius then none
              else some (ip, t)
            else none
          else none
        else none

/-- The per-frame label scale of `CrossSectionPlane.update`:
`Math.max(minScale, Math.min(maxScale, (distance / baseDistance) * baseScale))`
with `baseDistance = 20`, `baseScale = 2`, `minScale = 0.5`, `maxScale = 5`. -/
def labelScaleFactor (distance : ℚ) : ℚ :=
  max (1 / 2) (min 5 (distance / 20 * 2))

/-- A depth-label sprite's per-frame mutable state: its anchor position and its
three scale components. -/
structure DepthLabel where
  position : Vec3
  scaleX : ℚ
  scaleY : ℚ
  scaleZ : ℚ
deriving DecidableEq, Repr

/-- One iteration of `CrossSectionPlane.update` on a label whose distance to
the camera is `distance`: `sprite.scale.set(scaleFactor, scaleFactor * 0.25, 1)`
with the position left untouched. -/
def updateDepthLabel (distance : ℚ) (label : DepthLabel) : DepthLabel :=
  let scaleFactor := labelScaleFactor distance
  { position := label.position
    scaleX := scaleFactor
    scaleY := scaleFactor * (1 / 4)
    scaleZ := 1 }

theorem clamp01_nonneg (v : ℚ) : 0 ≤ clamp01 v :=
  le_max_left 0 (min 1 v)

theorem clamp01_le_one (v : ℚ) : clamp01 v ≤ 1 :=
  max_le (by norm_num) (min_le_left 1 v)

/-- Box optimality certificate for a clamped single-variable quadratic: for a
positive leading coefficient `α`, `clamp01 (β / α)` lands on a bound with the
matching derivative sign, or solves `α · S = β` exactly. -/
theorem clamp01_kkt (α β : ℚ) (hα : 0 < α) :
    (clamp01 (β / α) = 0 ∧ β ≤ 0) ∨ (clamp01 (β / α) = 1 ∧ α ≤ β) ∨
      α * clamp01 (β / α) = β := by
  rcases le_or_lt (β / α) 0 with h0 | h0
  · left
    refine ⟨?_, (div_nonpos_iff.mp h0).resolve_left (fun h => absurd hα (not_lt.mpr h.2))
      |>.1⟩
    simp [clamp01, max_eq_left, min_eq_right (le_trans h0 zero_le_one), h0]
  · rcases le_or_lt 1 (β / α) with h1 | h1
    · right; left
      constructor
      · simp [clamp01, min_eq_left h1]
      · exact (one_le_div hα).mp h1
    · right; right
      have : clamp01 (β / α) = β / α := by
        simp [clamp01, min_eq_right h1.le, max_eq_right h0.le]
      rw [this, mul_div_cancel₀ _ (ne_of_gt hα)]

/-- C1: the documented depth convention (`centimeters → meters`, centerline
elevation `-(depth + radius)` for nonnegative depth, raw value for negative
depth, in particular `-6.8` for `start_point_depth = 650` and radius `0.3`)
holds in the cross-section mapper and in the `Scene3D` geometry-building
variant, but the `Scene3D` mesh-positioning variant computes
`-(depth - radius)` instead, yielding `-6.2` on the same record — a slip that
contradicts the repository README and the sibling formula in the same file. -/
theorem spec_C1_depth_formula_divergence :
    centerElevation 650 (3 / 10) = -(68 / 10) ∧
    centerElevation (-650) (3 / 10) = -(65 / 10) ∧
    scene3dGeometryCenterY 650 (3 / 10) = -(68 / 10) ∧
    scene3dPositionCenterY 650 (3 / 10) = -(62 / 10) ∧
    scene3dPositionCenterY 650 (3 / 10) ≠ centerElevation 650 (3 / 10) := by
  refine ⟨?_, ?_, ?_, ?_, ?_⟩ <;> norm_num [centerElevation, scene3dGeometryCenterY,
    scene3dPositionCenterY]

/-- C6: radius normalization divides by 1000 exactly when the stored value
exceeds 5, then clamps at `0.05`; the result is always at least `0.05`, and
the two spec instances hold (`300 ↦ 0.3`, `0.3 ↦ 0.3`). -/
theorem spec_C6_radius_normalization :
    (∀ r : ℚ, normalizeRadius r = if r > 5 then max (r / 1000) (1 / 20) else max r (1 / 20)) ∧
    (∀ r : ℚ, 1 / 20 ≤ normalizeRadius r) ∧
    normalizeRadius 300 = 3 / 10 ∧ normalizeRadius (3 / 10) = 3 / 10 := by
  refine ⟨fun r => ?_, fun r => le_max_right _ _, ?_, ?_⟩
  · unfold normalizeRadius
    split_ifs <;> rfl
  · norm_num [normalizeRadius]
  · norm_num [normalizeRadius]

theorem mapPipeToSegment_fields (attributes : Option PipeAttributes) (g : PipeGeometry)
    (rest : List PipeGeometry) (seg : Segment3)
    (h : mapPipeToSegment ⟨attributes, g :: rest⟩ = some seg) :
    seg.radius = pipeRadius attributes ∧
    seg.start.x = (g.vertices.getD 0 (0, 0, 0)).2.1 ∧
    seg.start.z = (g.vertices.getD 0 (0, 0, 0)).1 ∧
    seg.stop.x = (g.vertices.getD (g.vertices.length - 1) (0, 0, 0)).2.1 ∧
    seg.stop.z = (g.vertices.getD (g.vertices.length - 1) (0, 0, 0)).1 := by
  simp only [mapPipeToSegment, List.head?] at h
  repeat' split at h
  all_goals first
    | exact Option.noConfusion h
    | (simp only [Option.some.injEq] at h; subst h; exact ⟨rfl, rfl, rfl, rfl, rfl⟩)

theorem mapPipeToSegment_radius (od : ObjectData) (s : Segment3)
    (h : mapPipeToSegment od = some s) : s.radius = pipeRadius od.attributes := by
  obtain ⟨attributes, _ | ⟨g, rest⟩⟩ := od
  · exact absurd h (by simp [mapPipeToSegment])
  · exact (mapPipeToSegment_fields attributes g rest s h).1

/-- C10: a record whose radius attribute is absent still gets the default
stored value `0.3`, which survives the unit heuristic and the `0.05` clamp
unchanged, and the mapper still produces a segment with that radius. -/
theorem spec_C10_default_radius :
    pipeRadius none = 3 / 10 ∧
    (∀ attrs : Option PipeAttributes, attrs.bind PipeAttributes.radius = none →
      pipeRadius attrs = 3 / 10) ∧
    (∀ od : ObjectData, ∀ s : Segment3, mapPipeToSegment od = some s →
      od.attributes.bind PipeAttributes.radius = none → s.radius = 3 / 10) := by
  have hval : ∀ attrs : Option PipeAttributes, attrs.bind PipeAttributes.radius = none →
      pipeRadius attrs = 3 / 10 := by
    intro attrs h
    unfold pipeRadius
    rw [h]
    norm_num [normalizeRadius]
  exact ⟨hval none rfl, hval, fun od s hs hn => (mapPipeToSegment_radius od s hs).trans
    (hval od.attributes hn)⟩

/-- C10 witness: a concrete record with no radius attribute is mapped to a
segment of radius `0.3`. -/
theorem spec_C10_default_radius_witness :
    mapPipeToSegment ⟨none, [⟨[(10, 20, 5), (30, 40, 5)]⟩]⟩ =
      some ⟨⟨20, 47 / 10, 10⟩, ⟨40, 47 / 10, 30⟩, 3 / 10⟩ ∧
    (⟨⟨20, 47 / 10, 10⟩, ⟨40, 47 / 10, 30⟩, 3 / 10⟩ : Segment3).radius = 3 / 10 := by
  have h : mapPipeToSegment ⟨none, [⟨[(10, 20, 5), (30, 40, 5)]⟩]⟩ =
      some ⟨⟨20, 47 / 10, 10⟩, ⟨40, 47 / 10, 30⟩, 3 / 10⟩ := by
    norm_num [mapPipeToSegment, pipeRadius, normalizeRadius]
  exact ⟨h, spec_C10_default_radius.2.2 ⟨none, [⟨[(10, 20, 5), (30, 40, 5)]⟩]⟩ _ h rfl⟩

/-- C9: each frame, a depth label's position is left unchanged while its
visual scale is set to `(distance / 20) * 2` clamped to `[0.5, 5]`; the scale
is always within those bounds, and equals the unclamped value when that value
is in range. -/
theorem spec_C9_label_scale :
    (∀ d : ℚ, ∀ lab : DepthLabel, (updateDepthLabel d lab).position = lab.position) ∧
    (∀ d : ℚ, ∀ lab : DepthLabel,
      (updateDepthLabel d lab).scaleX = max (1 / 2) (min 5 (d / 20 * 2))) ∧
    (∀ d : ℚ, 1 / 2 ≤ labelScaleFactor d ∧ labelScaleFactor d ≤ 5) ∧
    (∀ d : ℚ, 1 / 2 ≤ d / 20 * 2 → d / 20 * 2 ≤ 5 → labelScaleFactor d = d / 20 * 2) := by
  refine ⟨fun d lab => rfl, fun d lab => rfl,
    fun d => ⟨le_max_left _ _, max_le (by norm_num) (min_le_left _ _)⟩,
    fun d h1 h2 => ?_⟩
  unfold labelScaleFactor
  rw [min_eq_right h2, max_eq_right h1]

/-- C9 witness: at viewer distance 40 the unclamped value 4 is in range and is
returned as-is. -/
theorem spec_C9_label_scale_witness :
    (1 / 2 : ℚ) ≤ 40 / 20 * 2 ∧ (40 : ℚ) / 20 * 2 ≤ 5 ∧
      labelScaleFactor 40 = 40 / 20 * 2 :=
  ⟨by norm_num, by norm_num, spec_C9_label_scale.2.2.2 40 (by norm_num) (by norm_num)⟩

/-- C4 counterexample: the record with raw start vertex `(10, 20, 5)` is
mapped to a start point whose `x` component is `20` — the raw **index 1**
component — not `10` as the claim (output `x` equals raw index 0) requires. -/
theorem spec_C4_axis_counterexample :
    (mapPipeToSegment ⟨none, [⟨[(10, 20, 5), (30, 40, 5)]⟩]⟩).map Segment3.start =
      some ⟨20, 47 / 10, 10⟩ ∧ (20 : ℚ) ≠ 10 := by
  constructor
  · norm_num [mapPipeToSegment, pipeRadius, normalizeRadius]
  · norm_num

/-- C4 amended: for every mapped record, the produced endpoints carry the raw
**index 1** component in `x` and the raw **index 0** component in `z` (with
the stored convention `(east-west, north-south, elevation)` at indices
`(0,1,2)`, the mapper hence emits `(north-south, elevation, east-west)`). -/
theorem spec_C4_axis_order (od : ObjectData) (seg : Segment3)
    (h : mapPipeToSegment od = some seg) :
    ∃ g : PipeGeometry, od.geometry.head? = some g ∧
      seg.start.x = (g.vertices.getD 0 (0, 0, 0)).2.1 ∧
      seg.start.z = (g.vertices.getD 0 (0, 0, 0)).1 ∧
      seg.stop.x = (g.vertices.getD (g.vertices.length - 1) (0, 0, 0)).2.1 ∧
      seg.stop.z = (g.vertices.getD (g.vertices.length - 1) (0, 0, 0)).1 := by
  obtain ⟨attributes, _ | ⟨g, rest⟩⟩ := od
  · exact absurd h (by simp [mapPipeToSegment])
  · exact ⟨g, rfl, (mapPipeToSegment_fields attributes g rest seg h).2⟩

/-- C4 amended witness: the axis order at a concrete record. -/
theorem spec_C4_axis_order_witness :
    ∃ g : PipeGeometry,
      (⟨none, [⟨[(10, 20, 5), (30, 40, 5)]⟩]⟩ : ObjectData).geometry.head? = some g ∧
      (⟨20, 47 / 10, 10⟩ : Vec3).x = (g.vertices.getD 0 (0, 0, 0)).2.1 ∧
      (⟨20, 47 / 10, 10⟩ : Vec3).z = (g.vertices.getD 0 (0, 0, 0)).1 ∧
      (⟨40, 47 / 10, 30⟩ : Vec3).x = (g.vertices.getD (g.vertices.length - 1) (0, 0, 0)).2.1 ∧
      (⟨40, 47 / 10, 30⟩ : Vec3).z = (g.vertices.getD (g.vertices.length - 1) (0, 0, 0)).1 :=
  spec_C4_axis_order ⟨none, [⟨[(10, 20, 5), (30, 40, 5)]⟩]⟩
    ⟨⟨20, 47 / 10, 10⟩, ⟨40, 47 / 10, 30⟩, 3 / 10⟩
    (by norm_num [mapPipeToSegment, pipeRadius, normalizeRadius])

set_option linter.unnecessarySeqFocus false in
/-- C5: an intersection accepted by the fixed-plane path always has its
parametric value in `[0, 1]`, and one accepted by the fixed-depth grid-line
path additionally keeps the candidate point's plane-axis (`z`) coordinate
within the pipe's radius of the plane; any pipe failing these tests yields no
entry (`none`). -/
theorem spec_C5_acceptance_conditions :
    (∀ od : ObjectData, ∀ z : ℚ, ∀ pt : Vec3, ∀ t : ℚ,
      acceptAtCrossSectionPlane od z = some (pt, t) → 0 ≤ t ∧ t ≤ 1) ∧
    (∀ od : ObjectData, ∀ dep z : ℚ, ∀ pt : Vec3, ∀ t : ℚ,
      acceptAtDepth od dep z = some (pt, t) →
        (0 ≤ t ∧ t ≤ 1) ∧
          ∃ s : Segment3, mapPipeToSegment od = some s ∧ |pt.z - z| ≤ s.radius) := by
  constructor
  · intro od z pt t h
    unfold acceptAtCrossSectionPlane at h
    rcases hm : mapPipeToSegment od with _ | seg <;> rw [hm] at h
    · exact Option.noConfusion h
    · dsimp only at h
      split_ifs at h with h1 h2 h3 <;>
        first
          | exact Option.noConfusion h
          | (simp only [Option.some.injEq, Prod.mk.injEq] at h
             obtain ⟨-, rfl⟩ := h
             exact ⟨h3.1, h3.2⟩)
  · intro od dep z pt t h
    unfold acceptAtDepth at h
    rcases hm : mapPipeToSegment od with _ | seg <;> rw [hm] at h
    · exact Option.noConfusion h
    · dsimp only at h
      split_ifs at h with h1 h2 h3 h4 h5 <;>
        first
          | exact Option.noConfusion h
          | (simp only [Option.some.injEq, Prod.mk.injEq] at h
             obtain ⟨rfl, rfl⟩ := h
             exact ⟨⟨h4.1, h4.2⟩, seg, rfl, not_lt.mp h5⟩)

/-- C5 witness: a concrete slanted pipe is accepted by both paths — by the
fixed-plane path at `z = 5` and by the fixed-depth path at depth `-5.3` —
with parameter `t = 1/2` and a candidate point exactly on the plane. -/
theorem spec_C5_acceptance_witness :
    (0 ≤ (1 / 2 : ℚ) ∧ (1 / 2 : ℚ) ≤ 1) ∧
    ((0 ≤ (1 / 2 : ℚ) ∧ (1 / 2 : ℚ) ≤ 1) ∧
      ∃ s : Segment3,
        mapPipeToSegment ⟨none, [⟨[(0, 0, 0), (10, 10, -10)]⟩]⟩ = some s ∧
        |(⟨5, -53 / 10, 5⟩ : Vec3).z - 5| ≤ s.radius) :=
  ⟨spec_C5_acceptance_conditions.1 ⟨none, [⟨[(0, 0, 0), (10, 10, -10)]⟩]⟩ 5
      ⟨5, -53 / 10, 5⟩ (1 / 2)
      (by norm_num [acceptAtCrossSectionPlane, mapPipeToSegment, pipeRadius,
        normalizeRadius, Vec3.sub, Vec3.add, Vec3.smul, abs]),
    spec_C5_acceptance_conditions.2 ⟨none, [⟨[(0, 0, 0), (10, 10, -10)]⟩]⟩ (-53 / 10) 5
      ⟨5, -53 / 10, 5⟩ (1 / 2)
      (by norm_num [acceptAtDepth, mapPipeToSegment, pipeRadius,
        normalizeRadius, Vec3.sub, Vec3.add, Vec3.smul, abs])⟩

theorem region1_bounds (u : ℚ) :
    0 ≤ clamp01 u ∧ clamp01 u ≤ 1 ∧ 0 ≤ 1 - clamp01 u ∧ 1 - clamp01 u ≤ 1 ∧
      clamp01 u + (1 - clamp01 u) ≤ 1 :=
  ⟨clamp01_nonneg u, clamp01_le_one u, by linarith [clamp01_le_one u],
    by linarith [clamp01_nonneg u], by linarith⟩

theorem region0_div_bounds (s t det : ℚ) (hs : 0 ≤ s) (ht : 0 ≤ t) (hst : s + t ≤ det) :
    0 ≤ s / det ∧ s / det ≤ 1 ∧ 0 ≤ t / det ∧ t / det ≤ 1 ∧ s / det + t / det ≤ 1 := by
  rcases eq_or_lt_of_le (le_trans (add_nonneg hs ht) hst) with h0 | hpos
  · have hdet : det = 0 := h0.symm
    subst hdet
    simp
  · have h1 : s ≤ det := by linarith
    have h2 : t ≤ det := by linarith
    refine ⟨div_nonneg hs hpos.le, (div_le_one hpos).mpr h1,
      div_nonneg ht hpos.le, (div_le_one hpos).mpr h2, ?_⟩
    rw [div_add_div_same]
    exact (div_le_one hpos).mpr hst

theorem triParam_bounds (p v0 v1 v2 : Vec3) :
    0 ≤ (triParam p v0 v1 v2).1 ∧ (triParam p v0 v1 v2).1 ≤ 1 ∧
    0 ≤ (triParam p v0 v1 v2).2 ∧ (triParam p v0 v1 v2).2 ≤ 1 ∧
    (triParam p v0 v1 v2).1 + (triParam p v0 v1 v2).2 ≤ 1 := by
  unfold triParam
  dsimp only
  split_ifs with h1 h2 h3 h4 h5 h6
  · exact ⟨le_refl 0, zero_le_one, le_refl 0, zero_le_one, by norm_num⟩
  · exact ⟨le_refl 0, zero_le_one, clamp01_nonneg _, clamp01_le_one _, by
      simpa using clamp01_le_one _⟩
  · exact ⟨clamp01_nonneg _, clamp01_le_one _, le_refl 0, zero_le_one, by
      simpa using clamp01_le_one _⟩
  · exact region0_div_bounds _ _ _ (not_lt.mp h2) (not_lt.mp h4) h1
  · exact ⟨le_refl 0, zero_le_one, zero_le_one, le_refl 1, by norm_num⟩
  · exact ⟨zero_le_one, le_refl 1, le_refl 0, zero_le_one, by norm_num⟩
  · exact region1_bounds _

theorem quadForm_nonneg (a b e p q : ℚ) (ha : 0 ≤ a) (he : 0 ≤ e)
    (hD : 0 ≤ a * e - b * b) : 0 ≤ a * p ^ 2 - 2 * b * (p * q) + e * q ^ 2 := by
  rcases eq_or_lt_of_le ha with ha0 | hapos
  · have hb : b = 0 := by nlinarith
    rw [← ha0, hb]
    nlinarith [mul_nonneg he (sq_nonneg q)]
  · nlinarith [sq_nonneg (a * p - b * q), mul_nonneg hD (sq_nonneg q)]

/-- Convexity turns the box first-order (KKT) conditions into global
optimality over the unit square for the quadratic `segQuadF`. -/
theorem kkt_global (rr a b c e f S T : ℚ) (ha : 0 ≤ a) (he : 0 ≤ e)
    (hD : 0 ≤ a * e - b * b)
    (hs : (S = 0 ∧ 0 ≤ a * S - b * T + c) ∨ (S = 1 ∧ a * S - b * T + c ≤ 0) ∨
      a * S - b * T + c = 0)
    (ht : (T = 0 ∧ 0 ≤ e * T - b * S - f) ∨ (T = 1 ∧ e * T - b * S - f ≤ 0) ∨
      e * T - b * S - f = 0)
    (u v : ℚ) (hu0 : 0 ≤ u) (hu1 : u ≤ 1) (hv0 : 0 ≤ v) (hv1 : v ≤ 1) :
    segQuadF rr a b c e f S T ≤ segQuadF rr a b c e f u v := by
  have hquad : 0 ≤ a * (u - S) ^ 2 - 2 * b * ((u - S) * (v - T)) + e * (v - T) ^ 2 :=
    quadForm_nonneg a b e (u - S) (v - T) ha he hD
  have hsterm : 0 ≤ (a * S - b * T + c) * (u - S) := by
    rcases hs with ⟨rfl, hpos⟩ | ⟨rfl, hneg⟩ | hzero
    · exact mul_nonneg hpos (by linarith)
    · have := mul_nonneg (neg_nonneg.mpr hneg) (by linarith : (0 : ℚ) ≤ 1 - u)
      nlinarith
    · rw [hzero, zero_mul]
  have htterm : 0 ≤ (e * T - b * S - f) * (v - T) := by
    rcases ht with ⟨rfl, hpos⟩ | ⟨rfl, hneg⟩ | hzero
    · exact mul_nonneg hpos (by linarith)
    · have := mul_nonneg (neg_nonneg.mpr hneg) (by linarith : (0 : ℚ) ≤ 1 - v)
      nlinarith
    · rw [hzero, zero_mul]
  have hexp : segQuadF rr a b c e f u v - segQuadF rr a b c e f S T =
      2 * ((a * S - b * T + c) * (u - S)) + 2 * ((e * T - b * S - f) * (v - T)) +
        (a * (u - S) ^ 2 - 2 * b * ((u - S) * (v - T)) + e * (v - T) ^ 2) := by
    unfold segQuadF
    ring
  linarith

set_option maxHeartbeats 2000000 in
/-- Core inequality for the segment routine's re-solve step: when the first
pass produced `s0` (clamped solution of the normal equations, or `0` for
parallel directions) and the derived `t` fell below `0`, the re-solved
`s = clamp01 (-c / a)` keeps the boundary derivative sign `b * s + f ≤ 0`,
certifying the corner/edge choice `t = 0`. -/
theorem seg_tcond (a b c e f s0 : ℚ) (ha : 0 < a) (he : 0 < e)
    (hD : 0 ≤ a * e - b * b)
    (hpar : a * e - b * b = 0 → c * e = b * f ∧ a * f = b * c)
    (hs0 : (a * e - b * b = 0 ∧ s0 = 0) ∨
      (0 < a * e - b * b ∧
        ((s0 = 0 ∧ b * f - c * e ≤ 0) ∨ (s0 = 1 ∧ a * e - b * b ≤ b * f - c * e) ∨
          (a * e - b * b) * s0 = b * f - c * e)))
    (hs00 : 0 ≤ s0) (hs01 : s0 ≤ 1)
    (ht : b * s0 + f < 0) :
    b * clamp01 (-c / a) + f ≤ 0 := by
  rcases clamp01_kkt a (-c) ha with ⟨hS, hc⟩ | ⟨hS, hc⟩ | hS
  · -- re-solved S = 0 with 0 ≤ c : need f ≤ 0
    rw [hS, mul_zero, zero_add]
    have hc' : 0 ≤ c := by linarith
    rcases hs0 with ⟨hD0, hs0z⟩ | ⟨hDpos, hcase⟩
    · rw [hs0z, mul_zero, zero_add] at ht
      exact ht.le
    · rcases hcase with ⟨hs0z, hble⟩ | ⟨hs0o, hge⟩ | heq
      · rw [hs0z, mul_zero, zero_add] at ht
        exact ht.le
      · rw [hs0o, mul_one] at ht
        by_contra hcon
        push_neg at hcon
        have hce : 0 ≤ c * e := mul_nonneg hc' he.le
        nlinarith [mul_neg_of_neg_of_pos ht hcon, mul_pos hcon hcon]
      · by_contra hcon
        push_neg at hcon
        have hbf : 0 ≤ b * f := by
          nlinarith [mul_nonneg hDpos.le hs00, mul_nonneg hc' he.le, heq]
        nlinarith [mul_neg_of_neg_of_pos ht hcon, mul_nonneg hbf hs00,
          mul_pos hcon hcon]
  · -- re-solved S = 1 with a ≤ -c : need b + f ≤ 0
    rw [hS, mul_one]
    have hc' : c ≤ -a := by linarith
    rcases hs0 with ⟨hD0, hs0z⟩ | ⟨hDpos, hcase⟩
    · rw [hs0z, mul_zero, zero_add] at ht
      obtain ⟨hce, haf⟩ := hpar hD0
      have haf' : a * f < 0 := mul_neg_of_pos_of_neg ha ht
      have hbc : b * c < 0 := by linarith [haf]
      have hb : 0 < b := by
        by_contra hb'
        push_neg at hb'
        nlinarith [mul_nonneg_of_nonpos_of_nonpos hb' (show c ≤ 0 by linarith)]
      have key : a * (b + f) = b * (a + c) := by linear_combination haf
      by_contra hcon
      push_neg at hcon
      nlinarith [key, mul_pos ha hcon,
        mul_nonpos_of_nonneg_of_nonpos hb.le (show a + c ≤ 0 by linarith)]
    · rcases hcase with ⟨hs0z, hble⟩ | ⟨hs0o, hge⟩ | heq
      · rw [hs0z, mul_zero, zero_add] at ht
        rcases le_or_lt b 0 with hb | hb
        · linarith
        · by_contra hcon
          push_neg at hcon
          nlinarith [mul_pos hb hcon, hble, hD,
            mul_le_mul_of_nonneg_right (show c ≤ -a by linarith) he.le]
      · rw [hs0o, mul_one] at ht
        exact ht.le
      · rcases le_or_lt b 0 with hb | hb
        · have : b * 1 ≤ b * s0 := mul_le_mul_of_nonpos_left hs01 hb
          linarith [this]
        · by_contra hcon
          push_neg at hcon
          nlinarith [mul_pos hb hcon, heq,
            mul_le_mul_of_nonneg_left hs01 hDpos.le,
            mul_le_mul_of_nonneg_right (show c ≤ -a by linarith) he.le]
  · -- re-solved interior: a * S = -c
    have hS0 : 0 ≤ clamp01 (-c / a) := clamp01_nonneg _
    have hS1 : clamp01 (-c / a) ≤ 1 := clamp01_le_one _
    have hcle : c ≤ 0 := by nlinarith [mul_nonneg ha.le hS0]
    have hcge : -a ≤ c := by nlinarith [mul_le_mul_of_nonneg_left hS1 ha.le]
    have key : a * (b * clamp01 (-c / a) + f) = a * f - b * c := by
      linear_combination b * hS
    have hsuff : a * f - b * c ≤ 0 → b * clamp01 (-c / a) + f ≤ 0 := by
      intro hle
      by_contra hcon
      push_neg at hcon
      nlinarith [key, mul_pos ha hcon]
    apply hsuff
    rcases hs0 with ⟨hD0, hs0z⟩ | ⟨hDpos, hcase⟩
    · obtain ⟨hce, haf⟩ := hpar hD0
      linarith [haf]
    · rcases hcase with ⟨hs0z, hble⟩ | ⟨hs0o, hge⟩ | heq
      · rw [hs0z, mul_zero, zero_add] at ht
        rcases le_or_lt b 0 with hb | hb
        · nlinarith [mul_neg_of_pos_of_neg ha ht,
            mul_nonneg_of_nonpos_of_nonpos hb hcle]
        · by_contra hcon
          push_neg at hcon
          nlinarith [mul_pos hb hcon,
            mul_nonpos_of_nonneg_of_nonpos ha.le hble,
            mul_nonpos_of_nonpos_of_nonneg hcle hDpos.le]
      · rw [hs0o, mul_one] at ht
        have hkey : e * (a + c) ≤ b * b + b * f := by nlinarith [hge]
        have hb : b ≤ 0 := by
          by_contra hb'
          push_neg at hb'
          nlinarith [mul_pos hb' (show 0 < -(b + f) by linarith),
            mul_nonneg he.le (show 0 ≤ a + c by linarith)]
        rcases le_or_lt f 0 with hf | hf
        · nlinarith [mul_nonpos_of_nonneg_of_nonpos ha.le hf,
            mul_nonneg_of_nonpos_of_nonpos hb hcle]
        · have h1 : 0 ≤ (-(b + f)) * (a * e - b * b) :=
            mul_nonneg (by linarith) hD
          have hce' : c * e ≤ b * b + b * f - a * e := by nlinarith [hkey]
          have h2 : b * (b * b + b * f - a * e) ≤ b * (c * e) :=
            mul_le_mul_of_nonpos_left hce' hb
          have h5 : 0 ≤ e * (b * c - a * f) := by nlinarith [h1, h2]
          by_contra hcon
          push_neg at hcon
          nlinarith [mul_pos he (show 0 < a * f - b * c by linarith), h5]
      · have key2 : e * (a * f - b * c) = (a * e - b * b) * (b * s0 + f) := by
          linear_combination (-b) * heq
        have h3 : e * (a * f - b * c) < 0 := by
          rw [key2]
          exact mul_neg_of_pos_of_neg hDpos ht
        by_contra hcon
        push_neg at hcon
        linarith [mul_pos he hcon]

set_option maxHeartbeats 2000000 in
/-- The general (both segments non-degenerate) case of the segment routine
returns box-feasible parameters that globally minimize the squared-distance
quadratic over the unit square. -/
theorem segParamGeneral_optimal (a b c e f : ℚ) (ha : 0 < a) (he : 0 < e)
    (hD : 0 ≤ a * e - b * b)
    (hpar : a * e - b * b = 0 → c * e = b * f ∧ a * f = b * c) :
    (0 ≤ (segParamGeneral a b c e f).1 ∧ (segParamGeneral a b c e f).1 ≤ 1 ∧
      0 ≤ (segParamGeneral a b c e f).2 ∧ (segParamGeneral a b c e f).2 ≤ 1) ∧
    ∀ rr u v : ℚ, 0 ≤ u → u ≤ 1 → 0 ≤ v → v ≤ 1 →
      segQuadF rr a b c e f (segParamGeneral a b c e f).1 (segParamGeneral a b c e f).2 ≤
        segQuadF rr a b c e f u v := by
  have hene : e ≠ 0 := ne_of_gt he
  set D := a * e - b * b with hDdef
  set s0 : ℚ := if D ≠ 0 then clamp01 ((b * f - c * e) / D) else 0 with hs0def
  set t0 : ℚ := (b * s0 + f) / e with ht0def
  have hs0disj : (D = 0 ∧ s0 = 0) ∨
      (0 < D ∧ ((s0 = 0 ∧ b * f - c * e ≤ 0) ∨ (s0 = 1 ∧ D ≤ b * f - c * e) ∨
        D * s0 = b * f - c * e)) := by
    by_cases hd : D = 0
    · refine Or.inl ⟨hd, ?_⟩
      rw [hs0def, if_neg (by simpa using hd)]
    · have hDpos : 0 < D := lt_of_le_of_ne hD (Ne.symm hd)
      refine Or.inr ⟨hDpos, ?_⟩
      rw [hs0def, if_pos hd]
      exact clamp01_kkt D (b * f - c * e) hDpos
  have hs00 : 0 ≤ s0 := by
    rw [hs0def]
    split_ifs
    · exact clamp01_nonneg _
    · exact le_refl 0
  have hs01 : s0 ≤ 1 := by
    rw [hs0def]
    split_ifs
    · exact clamp01_le_one _
    · exact zero_le_one
  have hres : segParamGeneral a b c e f =
      if t0 < 0 then (clamp01 (-c / a), 0)
      else if t0 > 1 then (clamp01 ((b - c) / a), 1)
      else (s0, t0) := rfl
  by_cases hta : t0 < 0
  · rw [hres, if_pos hta]
    dsimp only
    have ht' : b * s0 + f < 0 := by
      rcases div_neg_iff.mp (ht0def ▸ hta) with ⟨_, hneg⟩ | ⟨hx, _⟩
      · exact absurd he (not_lt.mpr hneg.le)
      · exact hx
    have tcond := seg_tcond a b c e f s0 ha he hD hpar hs0disj hs00 hs01 ht'
    refine ⟨⟨clamp01_nonneg _, clamp01_le_one _, le_refl 0, zero_le_one⟩, ?_⟩
    intro rr u v hu0 hu1 hv0 hv1
    refine kkt_global rr a b c e f _ 0 ha.le he.le hD ?_ ?_ u v hu0 hu1 hv0 hv1
    · rcases clamp01_kkt a (-c) ha with ⟨hS, hc⟩ | ⟨hS, hc⟩ | hS
      · exact Or.inl ⟨hS, by rw [hS]; nlinarith [hc]⟩
      · exact Or.inr (Or.inl ⟨hS, by rw [hS]; nlinarith [hc]⟩)
      · exact Or.inr (Or.inr (by linear_combination hS))
    · exact Or.inl ⟨rfl, by nlinarith [tcond]⟩
  · by_cases htb : t0 > 1
    · rw [hres, if_neg hta, if_pos htb]
      dsimp only
      have ht' : e < b * s0 + f := by
        have := (one_lt_div he).mp (ht0def ▸ htb)
        linarith
      have tcond := seg_tcond a (-b) (c - b) e (e - f) s0 ha he
        (by nlinarith [hD])
        (fun h0 => by
          obtain ⟨hce, haf⟩ := hpar (by linear_combination h0)
          refine ⟨by linear_combination hce, by linear_combination h0 - haf⟩)
        (by
          rcases hs0disj with ⟨h1, h2⟩ | ⟨h1, h2⟩
          · exact Or.inl ⟨by linear_combination h1, h2⟩
          · refine Or.inr ⟨by nlinarith [h1], ?_⟩
            rcases h2 with ⟨hz, hle⟩ | ⟨ho, hge⟩ | heq
            · exact Or.inl ⟨hz, by nlinarith [hle]⟩
            · exact Or.inr (Or.inl ⟨ho, by nlinarith [hge]⟩)
            · exact Or.inr (Or.inr (by linear_combination heq)))
        hs00 hs01
        (by nlinarith [ht'])
      rw [show -(c - b) = b - c by ring] at tcond
      refine ⟨⟨clamp01_nonneg _, clamp01_le_one _, zero_le_one, le_refl 1⟩, ?_⟩
      intro rr u v hu0 hu1 hv0 hv1
      refine kkt_global rr a b c e f _ 1 ha.le he.le hD ?_ ?_ u v hu0 hu1 hv0 hv1
      · rcases clamp01_kkt a (b - c) ha with ⟨hS, hc⟩ | ⟨hS, hc⟩ | hS
        · exact Or.inl ⟨hS, by rw [hS]; nlinarith [hc]⟩
        · exact Or.inr (Or.inl ⟨hS, by rw [hS]; nlinarith [hc]⟩)
        · exact Or.inr (Or.inr (by linear_combination hS))
      · exact Or.inr (Or.inl ⟨rfl, by nlinarith [tcond]⟩)
    · rw [hres, if_neg hta, if_neg htb]
      dsimp only
      have ht0r : 0 ≤ t0 := not_lt.mp hta
      have ht1r : t0 ≤ 1 := not_lt.mp htb
      have hGt : e * t0 = b * s0 + f := by
        rw [ht0def]
        field_simp
      have hGs : e * (a * s0 - b * t0 + c) = D * s0 - (b * f - c * e) := by
        rw [ht0def, hDdef]
        field_simp
        ring
      refine ⟨⟨hs00, hs01, ht0r, ht1r⟩, ?_⟩
      intro rr u v hu0 hu1 hv0 hv1
      refine kkt_global rr a b c e f s0 t0 ha.le he.le hD ?_ ?_ u v hu0 hu1 hv0 hv1
      · rcases hs0disj with ⟨h1, h2⟩ | ⟨h1, h2⟩
        · obtain ⟨hce, -⟩ := hpar (by linear_combination h1)
          refine Or.inr (Or.inr ?_)
          have hz : e * (a * s0 - b * t0 + c) = 0 := by
            rw [hGs, h1]
            linear_combination hce
          exact (mul_eq_zero.mp hz).resolve_left hene
        · rcases h2 with ⟨hz, hle⟩ | ⟨ho, hge⟩ | heq
          · refine Or.inl ⟨hz, ?_⟩
            by_contra hcon
            push_neg at hcon
            nlinarith [hGs, mul_neg_of_pos_of_neg he hcon, hz]
          · refine Or.inr (Or.inl ⟨ho, ?_⟩)
            by_contra hcon
            push_neg at hcon
            nlinarith [hGs, mul_pos he hcon, ho]
          · refine Or.inr (Or.inr ?_)
            have hz : e * (a * s0 - b * t0 + c) = 0 := by
              rw [hGs]
              linear_combination heq
            exact (mul_eq_zero.mp hz).resolve_left hene
      · exact Or.inr (Or.inr (by linear_combination hGt))

theorem dotComm (u v : Vec3) : u.dot v = v.dot u := by
  unfold Vec3.dot
  ring

theorem sqDistComm (u v : Vec3) : sqDist u v = sqDist v u := by
  unfold sqDist Vec3.sub Vec3.dot
  ring

/-- Lagrange identity: the Gram determinant of two 3D vectors is a sum of
squares, hence nonnegative (Cauchy–Schwarz). -/
theorem dot_cauchy (d1 d2 : Vec3) :
    0 ≤ d1.dot d1 * (d2.dot d2) - d1.dot d2 * (d1.dot d2) := by
  unfold Vec3.dot
  nlinarith [sq_nonneg (d1.y * d2.z - d1.z * d2.y), sq_nonneg (d1.z * d2.x - d1.x * d2.z),
    sq_nonneg (d1.x * d2.y - d1.y * d2.x)]

/-- When the Gram determinant vanishes the directions are parallel, and the
mixed products collapse (Binet–Cauchy with a zero cross product). -/
theorem dot_parallel (d1 d2 r : Vec3)
    (h : d1.dot d1 * (d2.dot d2) - d1.dot d2 * (d1.dot d2) = 0) :
    d1.dot r * (d2.dot d2) = d1.dot d2 * (d2.dot r) ∧
    d1.dot d1 * (d2.dot r) = d1.dot d2 * (d1.dot r) := by
  unfold Vec3.dot at h ⊢
  have h1 : d1.y * d2.z - d1.z * d2.y = 0 := by
    nlinarith [sq_nonneg (d1.y * d2.z - d1.z * d2.y), sq_nonneg (d1.z * d2.x - d1.x * d2.z),
      sq_nonneg (d1.x * d2.y - d1.y * d2.x)]
  have h2 : d1.z * d2.x - d1.x * d2.z = 0 := by
    nlinarith [sq_nonneg (d1.y * d2.z - d1.z * d2.y), sq_nonneg (d1.z * d2.x - d1.x * d2.z),
      sq_nonneg (d1.x * d2.y - d1.y * d2.x)]
  have h3 : d1.x * d2.y - d1.y * d2.x = 0 := by
    nlinarith [sq_nonneg (d1.y * d2.z - d1.z * d2.y), sq_nonneg (d1.z * d2.x - d1.x * d2.z),
      sq_nonneg (d1.x * d2.y - d1.y * d2.x)]
  constructor
  · linear_combination (r.y * d2.z - r.z * d2.y) * h1 + (r.z * d2.x - r.x * d2.z) * h2 +
      (r.x * d2.y - r.y * d2.x) * h3
  · linear_combination (d1.y * r.z - d1.z * r.y) * h1 + (d1.z * r.x - d1.x * r.z) * h2 +
      (d1.x * r.y - d1.y * r.x) * h3

/-- The squared distance between the parameterized segment points equals the
scalar quadratic `segQuadF` over the dot products. -/
theorem sqDist_param (a1 a2 b1 b2 : Vec3) (s t : ℚ) :
    sqDist (a1.add ((a2.sub a1).smul s)) (b1.add ((b2.sub b1).smul t)) =
      segQuadF (sqDist a1 b1) ((a2.sub a1).dot (a2.sub a1)) ((a2.sub a1).dot (b2.sub b1))
        ((a2.sub a1).dot (a1.sub b1)) ((b2.sub b1).dot (b2.sub b1))
        ((b2.sub b1).dot (a1.sub b1)) s t := by
  unfold sqDist segQuadF Vec3.add Vec3.sub Vec3.smul Vec3.dot
  ring

theorem segWitnessSqDist_eq (a1 a2 b1 b2 : Vec3) :
    segWitnessSqDist a1 a2 b1 b2 =
      segQuadF (sqDist a1 b1) ((a2.sub a1).dot (a2.sub a1)) ((a2.sub a1).dot (b2.sub b1))
        ((a2.sub a1).dot (a1.sub b1)) ((b2.sub b1).dot (b2.sub b1))
        ((b2.sub b1).dot (a1.sub b1))
        (segParams ((a2.sub a1).dot (a2.sub a1)) ((a2.sub a1).dot (b2.sub b1))
          ((a2.sub a1).dot (a1.sub b1)) ((b2.sub b1).dot (b2.sub b1))
          ((b2.sub b1).dot (a1.sub b1))).1
        (segParams ((a2.sub a1).dot (a2.sub a1)) ((a2.sub a1).dot (b2.sub b1))
          ((a2.sub a1).dot (a1.sub b1)) ((b2.sub b1).dot (b2.sub b1))
          ((b2.sub b1).dot (a1.sub b1))).2 := by
  unfold segWitnessSqDist getClosestPointsBetweenLineSegments
  dsimp only
  exact sqDist_param a1 a2 b1 b2 _ _

set_option maxHeartbeats 1000000 in
/-- Scalar core of the segment-symmetry property: swapping the two segments
permutes the scalar products as `(a, b, c, e, f) ↦ (e, b, -f, a, -c)`, and
the quadratic value at the computed parameters is unchanged — in each
degenerate branch the parameter pair literally transposes, and in the general
branch both calls return global minimizers of the same (transposed) quadratic. -/
theorem segParams_symm (rr a b c e f : ℚ) (hD : 0 ≤ a * e - b * b)
    (hpar : a * e - b * b = 0 → c * e = b * f ∧ a * f = b * c) :
    segQuadF rr a b c e f (segParams a b c e f).1 (segParams a b c e f).2 =
      segQuadF rr e b (-f) a (-c) (segParams e b (-f) a (-c)).1
        (segParams e b (-f) a (-c)).2 := by
  have hswap : ∀ s t : ℚ, segQuadF rr e b (-f) a (-c) s t = segQuadF rr a b c e f t s := by
    intro s t
    unfold segQuadF
    ring
  by_cases hA : a ≤ jsEpsilon <;> by_cases hB : e ≤ jsEpsilon
  · rw [show segParams a b c e f = (0, 0) from by
        unfold segParams; rw [if_pos ⟨hA, hB⟩],
      show segParams e b (-f) a (-c) = (0, 0) from by
        unfold segParams; rw [if_pos ⟨hB, hA⟩]]
    rw [hswap]
  · rw [show segParams a b c e f = (0, clamp01 (f / e)) from by
        unfold segParams
        rw [if_neg (fun hc => hB hc.2), if_pos hA],
      show segParams e b (-f) a (-c) = (clamp01 (f / e), 0) from by
        unfold segParams
        rw [if_neg (fun hc => hB hc.1), if_neg hB, if_pos hA, neg_neg]]
    rw [hswap]
  · rw [show segParams a b c e f = (clamp01 (-c / a), 0) from by
        unfold segParams
        rw [if_neg (fun hc => hA hc.1), if_neg hA, if_pos hB],
      show segParams e b (-f) a (-c) = (0, clamp01 (-c / a)) from by
        unfold segParams
        rw [if_neg (fun hc => hA hc.2), if_pos hB]]
    rw [hswap]
  · have heps : (0 : ℚ) < jsEpsilon := by norm_num [jsEpsilon]
    have ha : 0 < a := lt_trans heps (not_le.mp hA)
    have he : 0 < e := lt_trans heps (not_le.mp hB)
    rw [show segParams a b c e f = segParamGeneral a b c e f from by
        unfold segParams
        rw [if_neg (fun hc => hA hc.1), if_neg hA, if_neg hB],
      show segParams e b (-f) a (-c) = segParamGeneral e b (-f) a (-c) from by
        unfold segParams
        rw [if_neg (fun hc => hB hc.1), if_neg hB, if_neg hA]]
    have hD2 : 0 ≤ e * a - b * b := by nlinarith [hD]
    have hpar2 : e * a - b * b = 0 → -f * a = b * -c ∧ e * -c = b * -f := by
      intro h0
      obtain ⟨hce, haf⟩ := hpar (by linear_combination h0)
      exact ⟨by linear_combination -haf, by linear_combination -hce⟩
    obtain ⟨⟨hP0, hP1, hP2, hP3⟩, hopt1⟩ := segParamGeneral_optimal a b c e f ha he hD hpar
    obtain ⟨⟨hQ0, hQ1, hQ2, hQ3⟩, hopt2⟩ :=
      segParamGeneral_optimal e b (-f) a (-c) he ha hD2 hpar2
    apply le_antisymm
    · calc
        segQuadF rr a b c e f (segParamGeneral a b c e f).1 (segParamGeneral a b c e f).2 ≤
            segQuadF rr a b c e f (segParamGeneral e b (-f) a (-c)).2
              (segParamGeneral e b (-f) a (-c)).1 :=
          hopt1 rr _ _ hQ2 hQ3 hQ0 hQ1
        _ = segQuadF rr e b (-f) a (-c) (segParamGeneral e b (-f) a (-c)).1
              (segParamGeneral e b (-f) a (-c)).2 := (hswap _ _).symm
    · calc
        segQuadF rr e b (-f) a (-c) (segParamGeneral e b (-f) a (-c)).1
              (segParamGeneral e b (-f) a (-c)).2 ≤
            segQuadF rr e b (-f) a (-c) (segParamGeneral a b c e f).2
              (segParamGeneral a b c e f).1 :=
          hopt2 rr _ _ hP2 hP3 hP0 hP1
        _ = segQuadF rr a b c e f (segParamGeneral a b c e f).1
              (segParamGeneral a b c e f).2 := hswap _ _

/-- C7: the distance between the witness points of
`closestPointsOnSegments(a1, a2, b1, b2)` equals that of
`closestPointsOnSegments(b1, b2, a1, a2)`, for all endpoint inputs (stated on
squared distances; the square root is injective on nonnegatives). -/
theorem spec_C7_segment_symmetry (a1 a2 b1 b2 : Vec3) :
    segWitnessSqDist a1 a2 b1 b2 = segWitnessSqDist b1 b2 a1 a2 := by
  rw [segWitnessSqDist_eq a1 a2 b1 b2, segWitnessSqDist_eq b1 b2 a1 a2]
  rw [show (b2.sub b1).dot (a2.sub a1) = (a2.sub a1).dot (b2.sub b1) from dotComm _ _,
    show (b2.sub b1).dot (b1.sub a1) = -((b2.sub b1).dot (a1.sub b1)) from by
      unfold Vec3.dot Vec3.sub; ring,
    show (a2.sub a1).dot (b1.sub a1) = -((a2.sub a1).dot (a1.sub b1)) from by
      unfold Vec3.dot Vec3.sub; ring,
    show sqDist b1 a1 = sqDist a1 b1 from sqDistComm _ _]
  exact segParams_symm (sqDist a1 b1) _ _ _ _ _ (dot_cauchy (a2.sub a1) (b2.sub b1))
    (dot_parallel (a2.sub a1) (b2.sub b1) (a1.sub b1))

/-- C8: for every query point and triangle, the point returned by the triangle
routine has barycentric coordinates `(1 - s - t, s, t)` that each lie in
`[0, 1]` and sum to 1 — the witness point lies on or within the triangle —
and it is exactly the combination `v0 + s·edge0 + t·edge1`. -/
theorem spec_C8_triangle_barycentric (p v0 v1 v2 : Vec3) :
    0 ≤ (triParam p v0 v1 v2).1 ∧ (triParam p v0 v1 v2).1 ≤ 1 ∧
    0 ≤ (triParam p v0 v1 v2).2 ∧ (triParam p v0 v1 v2).2 ≤ 1 ∧
    0 ≤ 1 - (triParam p v0 v1 v2).1 - (triParam p v0 v1 v2).2 ∧
    1 - (triParam p v0 v1 v2).1 - (triParam p v0 v1 v2).2 ≤ 1 ∧
    (1 - (triParam p v0 v1 v2).1 - (triParam p v0 v1 v2).2) + (triParam p v0 v1 v2).1 +
      (triParam p v0 v1 v2).2 = 1 ∧
    (getClosestPointToTriangle p v0 v1 v2).closestPoint =
      (v0.add ((v1.sub v0).smul (triParam p v0 v1 v2).1)).add
        ((v2.sub v0).smul (triParam p v0 v1 v2).2) := by
  obtain ⟨h1, h2, h3, h4, h5⟩ := triParam_bounds p v0 v1 v2
  exact ⟨h1, h2, h3, h4, by linarith, by linarith, by ring, rfl⟩

/-- C2: the triangle routine negates both barycentric numerators (it computes
`b·e - c·d` and `b·d - a·e` where the correct solution of the normal equations
is `c·d - b·e` and `a·e - b·d`), so every region is misclassified.  At the
query point `(1/4, 1/4, 0)`, which lies inside the triangle
`(0,0,0), (1,0,0), (0,1,0)` (barycentric parameters `s = t = 1/4`), the code
lands in its "region 4" branch and returns vertex `v0` at squared distance
`1/8`, although the triangle contains a point at distance `0` — the returned
point is not the nearest point and the returned distance is not the distance
to the triangle. -/
theorem spec_C2_triangle_misclassified :
    (getClosestPointToTriangle ⟨1 / 4, 1 / 4, 0⟩ ⟨0, 0, 0⟩ ⟨1, 0, 0⟩ ⟨0, 1, 0⟩).closestPoint
        = ⟨0, 0, 0⟩ ∧
    (getClosestPointToTriangle ⟨1 / 4, 1 / 4, 0⟩ ⟨0, 0, 0⟩ ⟨1, 0, 0⟩ ⟨0, 1, 0⟩).sqDistance
        = 1 / 8 ∧
    ((0 : ℚ) ≤ 1 / 4 ∧ (0 : ℚ) ≤ 1 / 4 ∧ (1 / 4 : ℚ) + 1 / 4 ≤ 1) ∧
    sqDist ⟨1 / 4, 1 / 4, 0⟩
        (((⟨0, 0, 0⟩ : Vec3).add (((⟨1, 0, 0⟩ : Vec3).sub ⟨0, 0, 0⟩).smul (1 / 4))).add
          (((⟨0, 1, 0⟩ : Vec3).sub ⟨0, 0, 0⟩).smul (1 / 4))) = 0 ∧
    (0 : ℚ) < 1 / 8 := by
  refine ⟨?_, ?_, by norm_num, ?_, by norm_num⟩ <;>
    norm_num [getClosestPointToTriangle, triParam, Vec3.sub, Vec3.dot, Vec3.add,
      Vec3.smul, sqDist, clamp01]

theorem minStep_foldl_some (l : List MeshCand) : ∀ b : MeshCand,
    ∃ r, l.foldl minStep (some b) = some r ∧ (r = b ∨ r ∈ l) ∧ r.sqD ≤ b.sqD ∧
      ∀ c ∈ l, r.sqD ≤ c.sqD := by
  induction l with
  | nil =>
    intro b
    exact ⟨b, rfl, Or.inl rfl, le_refl _, by simp⟩
  | cons x xs ih =>
    intro b
    by_cases hx : x.sqD < b.sqD
    · obtain ⟨r, hr, hmem, hle, hall⟩ := ih x
      refine ⟨r, ?_, ?_, ?_, ?_⟩
      · rw [List.foldl_cons, show minStep (some b) x = some x from by simp [minStep, hx]]
        exact hr
      · rcases hmem with rfl | hm
        · exact Or.inr (List.mem_cons_self _ _)
        · exact Or.inr (List.mem_cons_of_mem _ hm)
      · linarith
      · intro c hc
        rcases List.mem_cons.mp hc with rfl | hc'
        · exact hle
        · exact hall c hc'
    · obtain ⟨r, hr, hmem, hle, hall⟩ := ih b
      refine ⟨r, ?_, ?_, hle, ?_⟩
      · rw [List.foldl_cons, show minStep (some b) x = some b from by simp [minStep, hx]]
        exact hr
      · rcases hmem with rfl | hm
        · exact Or.inl rfl
        · exact Or.inr (List.mem_cons_of_mem _ hm)
      · intro c hc
        rcases List.mem_cons.mp hc with rfl | hc'
        · linarith [not_lt.mp hx]
        · exact hall c hc'

theorem runningMin_none_iff (l : List MeshCand) : runningMin l = none ↔ l = [] := by
  cases l with
  | nil => simp [runningMin]
  | cons x xs =>
    simp only [runningMin, List.foldl_cons, show minStep none x = some x from rfl]
    obtain ⟨r, hr, -, -, -⟩ := minStep_foldl_some xs x
    rw [hr]
    simp

theorem runningMin_min (l : List MeshCand) (r : MeshCand) (h : runningMin l = some r) :
    r ∈ l ∧ ∀ c ∈ l, r.sqD ≤ c.sqD := by
  cases l with
  | nil => simp [runningMin] at h
  | cons x xs =>
    rw [runningMin, List.foldl_cons, show minStep none x = some x from rfl] at h
    obtain ⟨r', hr', hmem, hle, hall⟩ := minStep_foldl_some xs x
    rw [hr'] at h
    obtain rfl : r' = r := Option.some.injEq _ _ ▸ h
    constructor
    · rcases hmem with rfl | hm
      · exact List.mem_cons_self _ _
      · exact List.mem_cons_of_mem _ hm
    · intro c hc
      rcases List.mem_cons.mp hc with rfl | hc'
      · exact hle
      · exact hall c hc'

/-- C3 counterexample: a mesh with one vertex and **no index buffer** against
a mesh with one indexed triangle yields a non-null result — the
vertex-of-A-vs-face-of-B pass only needs B's index buffer, so "either mesh
lacks an index buffer" does **not** force null as the claim states. -/
theorem spec_C3_mesh_null_counterexample :
    (⟨some ⟨some [⟨0, 0, 0⟩], none⟩⟩ : Mesh).geometry.bind BufferGeometry.index = none ∧
    getClosestPointsBetweenMeshes ⟨some ⟨some [⟨0, 0, 0⟩], none⟩⟩
        ⟨some ⟨some [⟨2, 0, 0⟩, ⟨3, 0, 0⟩, ⟨2, 1, 0⟩], some [0, 1, 2]⟩⟩ ≠ none := by
  constructor
  · rfl
  · intro h
    rw [show getClosestPointsBetweenMeshes ⟨some ⟨some [⟨0, 0, 0⟩], none⟩⟩
          ⟨some ⟨some [⟨2, 0, 0⟩, ⟨3, 0, 0⟩, ⟨2, 1, 0⟩], some [0, 1, 2]⟩⟩ =
        runningMin (meshCandidates ⟨some [⟨0, 0, 0⟩], none⟩
          ⟨some [⟨2, 0, 0⟩, ⟨3, 0, 0⟩, ⟨2, 1, 0⟩], some [0, 1, 2]⟩
          [⟨0, 0, 0⟩] [⟨2, 0, 0⟩, ⟨3, 0, 0⟩, ⟨2, 1, 0⟩]) from rfl] at h
    rw [runningMin_none_iff] at h
    simp [meshCandidates, vertexFaceCands, faceVertexCands, edgeEdgeCands,
      resolveTriangles, indexTriples] at h

theorem flatMap_const_nil {A B : Type} (l : List A) :
    (l.flatMap fun _ => ([] : List B)) = [] := by
  induction l with
  | nil => rfl
  | cons x xs ih => simp [ih]

/-- C3 amended: the mesh/mesh routine returns null when either geometry or
position buffer is missing, when **both** index buffers are absent, or when
either mesh has zero vertices (with its index buffer empty or absent, as
well-formedness forces); a mesh lacking only its own index buffer does not
force null (see the counterexample).  Whenever a result is returned it is a
witness pair achieving the global minimum over all candidates examined by the
vertex/face, face/vertex and edge/edge passes. -/
theorem spec_C3_mesh_null_amended :
    (∀ mA mB : Mesh, mA.geometry = none ∨ mB.geometry = none →
      getClosestPointsBetweenMeshes mA mB = none) ∧
    (∀ gA gB : BufferGeometry, gA.position = none ∨ gB.position = none →
      getClosestPointsBetweenMeshes ⟨some gA⟩ ⟨some gB⟩ = none) ∧
    (∀ gA gB : BufferGeometry, gA.index = none → gB.index = none →
      getClosestPointsBetweenMeshes ⟨some gA⟩ ⟨some gB⟩ = none) ∧
    (∀ gA gB : BufferGeometry, gA.position = some [] →
      (gA.index = none ∨ gA.index = some []) →
      getClosestPointsBetweenMeshes ⟨some gA⟩ ⟨some gB⟩ = none) ∧
    (∀ gA gB : BufferGeometry, gB.position = some [] →
      (gB.index = none ∨ gB.index = some []) →
      getClosestPointsBetweenMeshes ⟨some gA⟩ ⟨some gB⟩ = none) ∧
    (∀ gA gB : BufferGeometry, ∀ versA versB : List Vec3, ∀ r : MeshCand,
      gA.position = some versA → gB.position = some versB →
      getClosestPointsBetweenMeshes ⟨some gA⟩ ⟨some gB⟩ = some r →
      r ∈ meshCandidates gA gB versA versB ∧
        ∀ cand ∈ meshCandidates gA gB versA versB, r.sqD ≤ cand.sqD) := by
  refine ⟨?_, ?_, ?_, ?_, ?_, ?_⟩
  · intro mA mB h
    obtain ⟨gA⟩ := mA
    obtain ⟨gB⟩ := mB
    dsimp only at h
    rcases h with rfl | rfl
    · rcases gB with _ | g <;> rfl
    · rcases gA with _ | g <;> rfl
  · intro gA gB h
    obtain ⟨pA, iA⟩ := gA
    obtain ⟨pB, iB⟩ := gB
    dsimp only at h
    rcases h with rfl | rfl
    · rcases pB with _ | vB <;> rfl
    · rcases pA with _ | vA <;> rfl
  · intro gA gB h1 h2
    obtain ⟨pA, iA⟩ := gA
    obtain ⟨pB, iB⟩ := gB
    dsimp only at h1 h2
    subst h1 h2
    rcases pA with _ | vA <;> rcases pB with _ | vB <;>
      simp [getClosestPointsBetweenMeshes, meshCandidates, runningMin]
  · intro gA gB hpos hidx
    obtain ⟨pA, iA⟩ := gA
    obtain ⟨pB, iB⟩ := gB
    dsimp only at hpos hidx
    subst hpos
    rcases hidx with rfl | rfl <;> rcases pB with _ | vB <;> rcases iB with _ | ib <;>
      simp [getClosestPointsBetweenMeshes, meshCandidates, vertexFaceCands,
        faceVertexCands, edgeEdgeCands, resolveTriangles, indexTriples, runningMin,
        flatMap_const_nil]
  · intro gA gB hpos hidx
    obtain ⟨pA, iA⟩ := gA
    obtain ⟨pB, iB⟩ := gB
    dsimp only at hpos hidx
    subst hpos
    rcases hidx with rfl | rfl <;> rcases pA with _ | vA <;> rcases iA with _ | ia <;>
      simp [getClosestPointsBetweenMeshes, meshCandidates, vertexFaceCands,
        faceVertexCands, edgeEdgeCands, resolveTriangles, indexTriples, runningMin,
        flatMap_const_nil]
  · intro gA gB versA versB r hpA hpB h
    obtain ⟨pA, iA⟩ := gA
    obtain ⟨pB, iB⟩ := gB
    dsimp only at hpA hpB
    subst hpA hpB
    exact runningMin_min _ r h

/-- C3 amended witness: two index-less single-vertex meshes give null, and at
the counterexample input the returned pair is a candidate achieving the
minimum over every examined candidate. -/
theorem spec_C3_mesh_null_amended_witness :
    getClosestPointsBetweenMeshes ⟨some ⟨some [⟨0, 0, 0⟩], none⟩⟩
        ⟨some ⟨some [⟨1, 1, 1⟩], none⟩⟩ = none ∧
    (⟨⟨0, 0, 0⟩, ⟨3, 0, 0⟩, 9⟩ : MeshCand) ∈ meshCandidates ⟨some [⟨0, 0, 0⟩], none⟩
        ⟨some [⟨2, 0, 0⟩, ⟨3, 0, 0⟩, ⟨2, 1, 0⟩], some [0, 1, 2]⟩
        [⟨0, 0, 0⟩] [⟨2, 0, 0⟩, ⟨3, 0, 0⟩, ⟨2, 1, 0⟩] ∧
    ∀ cand ∈ meshCandidates ⟨some [⟨0, 0, 0⟩], none⟩
        ⟨some [⟨2, 0, 0⟩, ⟨3, 0, 0⟩, ⟨2, 1, 0⟩], some [0, 1, 2]⟩
        [⟨0, 0, 0⟩] [⟨2, 0, 0⟩, ⟨3, 0, 0⟩, ⟨2, 1, 0⟩],
      (9 : ℚ) ≤ cand.sqD := by
  have h1 := spec_C3_mesh_null_amended.2.2.1 ⟨some [⟨0, 0, 0⟩], none⟩
    ⟨some [⟨1, 1, 1⟩], none⟩ rfl rfl
  have hres : getClosestPointsBetweenMeshes ⟨some ⟨some [⟨0, 0, 0⟩], none⟩⟩
      ⟨some ⟨some [⟨2, 0, 0⟩, ⟨3, 0, 0⟩, ⟨2, 1, 0⟩], some [0, 1, 2]⟩⟩ =
      some ⟨⟨0, 0, 0⟩, ⟨3, 0, 0⟩, 9⟩ := by
    norm_num [getClosestPointsBetweenMeshes, meshCandidates, vertexFaceCands,
      faceVertexCands, edgeEdgeCands, resolveTriangles, indexTriples, runningMin,
      minStep, getClosestPointToTriangle, triParam, clamp01, sqDist,
      Vec3.sub, Vec3.dot, Vec3.add, Vec3.smul, List.foldl]
  have h2 := spec_C3_mesh_null_amended.2.2.2.2.2 ⟨some [⟨0, 0, 0⟩], none⟩
    ⟨some [⟨2, 0, 0⟩, ⟨3, 0, 0⟩, ⟨2, 1, 0⟩], some [0, 1, 2]⟩
    [⟨0, 0, 0⟩] [⟨2, 0, 0⟩, ⟨3, 0, 0⟩, ⟨2, 1, 0⟩]
    ⟨⟨0, 0, 0⟩, ⟨3, 0, 0⟩, 9⟩ rfl rfl hres
  exact ⟨h1, h2.1, fun cand hc => h2.2 cand hc⟩
